import Mathlib

/-!
Verification of the deadlock-lab bank program (`labs/deadlock/starter/bank.c`
together with `common.h`).  The C program is embedded shallowly: the shared
account array becomes a `List Int` of balances, the per-account mutexes become
an explicit list of currently held lock indices, and the four global statistics
counters become a `Stats` record.  Every transfer routine is translated line by
line from the source, including the starter placeholders that are still marked
TODO there (`mutex_trylock_timed` returns `ETIMEDOUT` unconditionally,
`transfer_ordered` only increments the success counter, `transfer_trylock`
returns failure unconditionally).
-/

namespace Bank

/-- Configuration constants, from `common.h` lines 13-17. -/
def NUM_ACCOUNTS : Nat := 10

/-- Default worker-thread count, `common.h` line 15. -/
def NUM_THREADS : Nat := 8

/-- Default transfers per thread, `common.h` line 16. -/
def TRANSFERS_PER_THREAD : Nat := 1000

/-- Initial balance of every account, `common.h` line 17. -/
def INITIAL_BALANCE : Int := 1000

/-- Value of the `ETIMEDOUT` errno constant on Linux. -/
def ETIMEDOUT : Int := 110

/-- Global statistics, `bank.c` lines 7-12 (`struct stats`). -/
structure Stats where
  successful_transfers : Nat
  failed_transfers : Nat
  deadlock_detections : Nat
  retries : Nat
deriving DecidableEq

/-- State of the bank: account balances (indexed by account id, from
`init_accounts` in `common.h` the id of an account is its index), the list of
account locks currently held, and the global counters. -/
structure BankState where
  balances : List Int
  heldLocks : List Nat
  stats : Stats
deriving DecidableEq

/-- Read the balance of account `i` (`accounts[i].balance`). -/
def getBalance (s : BankState) (i : Nat) : Int :=
  s.balances.getD i 0

/-- Write the balance of account `i`. -/
def setBalance (s : BankState) (i : Nat) (v : Int) : BankState :=
  { s with balances := s.balances.set i v }

/-- Effect of a completed `pthread_mutex_lock(&accounts[i].lock)`. -/
def acquireLock (s : BankState) (i : Nat) : BankState :=
  { s with heldLocks := s.heldLocks ++ [i] }

/-- Effect of `pthread_mutex_unlock(&accounts[i].lock)`. -/
def releaseLock (s : BankState) (i : Nat) : BankState :=
  { s with heldLocks := s.heldLocks.erase i }

/-- Atomic increment of `stats.successful_transfers` (`__sync_fetch_and_add`). -/
def incSuccessful (s : BankState) : BankState :=
  { s with stats := { s.stats with successful_transfers := s.stats.successful_transfers + 1 } }

/-- Atomic increment of `stats.failed_transfers`. -/
def incFailed (s : BankState) : BankState :=
  { s with stats := { s.stats with failed_transfers := s.stats.failed_transfers + 1 } }

/-- Atomic increment of `stats.retries`. -/
def incRetries (s : BankState) : BankState :=
  { s with stats := { s.stats with retries := s.stats.retries + 1 } }

/-- Primitive steps performed by a transfer routine, used to record the exact
step sequence of `transfer_naive` (`bank.c` lines 51-70). -/
inductive Event where
  | lock (i : Nat)
  | unlock (i : Nat)
  | sleep
  | debit (i : Nat) (amount : Int)
  | credit (i : Nat) (amount : Int)
  | incSuccess
deriving DecidableEq

/-- Embedding of `transfer_naive`, `bank.c` lines 51-70: lock `from`, short
pause (`usleep(1)`), lock `to`, debit `from`, credit `to`, unlock `to`, unlock
`from`, increment success counter.  The function is `void` in C: it has no
failure return.  Alongside the new state it returns the list of primitive
steps it performed, in program order. -/
def transfer_naive (srcA dstA : Nat) (amount : Int) (s : BankState) :
    BankState × List Event :=
  let s1 := acquireLock s srcA
  let s2 := acquireLock s1 dstA
  let s3 := setBalance s2 srcA (getBalance s2 srcA - amount)
  let s4 := setBalance s3 dstA (getBalance s3 dstA + amount)
  let s5 := releaseLock s4 dstA
  let s6 := releaseLock s5 srcA
  (incSuccessful s6,
    [Event.lock srcA, Event.sleep, Event.lock dstA, Event.debit srcA amount,
     Event.credit dstA amount, Event.unlock dstA, Event.unlock srcA,
     Event.incSuccess])

/-- Embedding of `mutex_trylock_timed`, `bank.c` lines 83-86.  The starter body
is `return ETIMEDOUT; /* Placeholder */`: it never attempts the lock, changes
no state, and returns `ETIMEDOUT` unconditionally, regardless of the lock
state and of the timeout budget. -/
def mutex_trylock_timed (s : BankState) (lockIdx : Nat) (timeout_ms : Nat) :
    BankState × Int :=
  (s, ETIMEDOUT)

/-- Embedding of `transfer_timeout`, `bank.c` lines 104-133, as written in the
source: try `from` with a 100 ms budget, on timeout return `-1` (the TODO to
increment the deadlock counter is not implemented); otherwise pause, try `to`
with a 100 ms budget, on timeout return `-1` (the TODOs to release `from` and
increment the counter are not implemented); otherwise debit, credit, unlock
`to` then `from`, increment the success counter and return `0`. -/
def transfer_timeout (srcA dstA : Nat) (amount : Int) (s : BankState) :
    BankState × Int :=
  let r1 := mutex_trylock_timed s srcA 100
  if r1.2 = ETIMEDOUT then
    (r1.1, -1)
  else
    let r2 := mutex_trylock_timed r1.1 dstA 100
    if r2.2 = ETIMEDOUT then
      (r2.1, -1)
    else
      let s3 := setBalance r2.1 srcA (getBalance r2.1 srcA - amount)
      let s4 := setBalance s3 dstA (getBalance s3 dstA + amount)
      let s5 := releaseLock s4 dstA
      let s6 := releaseLock s5 srcA
      (incSuccessful s6, 0)

/-- Embedding of `transfer_ordered`, `bank.c` lines 153-170.  The starter body
consists only of TODO comments followed by the success-counter increment: no
lock is taken and no balance is changed. -/
def transfer_ordered (srcA dstA : Nat) (amount : Int) (s : BankState) :
    BankState :=
  incSuccessful s

/-- Embedding of `transfer_trylock`, `bank.c` lines 194-198.  The starter body
is `return -1;`: no lock is attempted, no state is changed. -/
def transfer_trylock (srcA dstA : Nat) (amount : Int) (s : BankState) :
    BankState × Int :=
  (s, -1)

/-- Embedding of the worker retry loop for mode 1 (TIMEOUT), `bank.c` lines
224-231.  `allowed` is `max_retries - retry_count` at the loop head: the count
of further failed attempts tolerated before the permanent-failure branch.  The
loop body increments `stats.retries` after every failed attempt; when the cap
is crossed it increments `stats.failed_transfers` and breaks, otherwise it
sleeps 10 ms (no state effect) and retries.  The second component of the
result is the number of `transfer_timeout` invocations performed. -/
def timeout_retry_loop (srcA dstA : Nat) (amount : Int) (allowed : Nat)
    (s : BankState) : BankState × Nat :=
  let r := transfer_timeout srcA dstA amount s
  if r.2 = 0 then (r.1, 1)
  else
    match allowed with
    | 0 => (incFailed (incRetries r.1), 1)
    | Nat.succ al =>
      let r2 := timeout_retry_loop srcA dstA amount al (incRetries r.1)
      (r2.1, r2.2 + 1)

/-- Embedding of the worker retry loop for mode 3 (TRYLOCK), `bank.c` lines
235-242, identical in structure to the timeout loop but calling
`transfer_trylock` and sleeping a random backoff (no state effect). -/
def trylock_retry_loop (srcA dstA : Nat) (amount : Int) (allowed : Nat)
    (s : BankState) : BankState × Nat :=
  let r := transfer_trylock srcA dstA amount s
  if r.2 = 0 then (r.1, 1)
  else
    match allowed with
    | 0 => (incFailed (incRetries r.1), 1)
    | Nat.succ al =>
      let r2 := trylock_retry_loop srcA dstA amount al (incRetries r.1)
      (r2.1, r2.2 + 1)

/-- Mode dispatch of one worker iteration, `bank.c` lines 218-243, with the
retry cap `max_retries = 1000` of line 219. -/
def worker_step (mode : Nat) (srcA dstA : Nat) (amount : Int) (s : BankState) :
    BankState :=
  if mode = 0 then (transfer_naive srcA dstA amount s).1
  else if mode = 1 then (timeout_retry_loop srcA dstA amount 1000 s).1
  else if mode = 2 then transfer_ordered srcA dstA amount s
  else if mode = 3 then (trylock_retry_loop srcA dstA amount 1000 s).1
  else s

/-- One worker thread processing its list of selected transfer requests in
order, `bank.c` lines 204-244 (each request is `(from_id, to_id, amount)`). -/
def worker_run (mode : Nat) (reqs : List (Nat × Nat × Int)) (s : BankState) :
    BankState :=
  reqs.foldl (fun st r => worker_step mode r.1 r.2.1 r.2.2 st) s

/-- Embedding of the request selection in `worker`, `bank.c` lines 204-215:
draw `from_id` and `to_id` as `rand() % num_accounts`; if they coincide the
iteration is skipped without consuming the transfer budget (`i--; continue;`);
otherwise a third draw fixes `amount = 1 + rand() % 10` and one unit of budget
is consumed.  The pseudo-random stream is made explicit as a list of draws. -/
def genRequests (num_accounts : Nat) : List Nat → Nat → List (Nat × Nat × Int)
  | _, 0 => []
  | r1 :: r2 :: rest, Nat.succ b =>
    if r1 % num_accounts = r2 % num_accounts then
      genRequests num_accounts rest (Nat.succ b)
    else
      match rest with
      | ra :: rest2 =>
        (r1 % num_accounts, r2 % num_accounts, ((1 + ra % 10 : Nat) : Int)) ::
          genRequests num_accounts rest2 b
      | [] => []
  | _, _ => []

/-- Embedding of `init_accounts`, `common.h` lines 38-46: `n` accounts whose
id is their index, each with balance `initial_balance` and a free lock. -/
def init_accounts (n : Nat) (initial_balance : Int) : List Int :=
  List.replicate n initial_balance

/-- Embedding of `verify_total`, `common.h` lines 57-68: sum the balances with
a running total and compare against the expected total. -/
def verify_total (balances : List Int) (expected_total : Int) : Bool :=
  balances.foldl (· + ·) 0 == expected_total

/-- State of the process right after `init_accounts` and the zero
initialisation of `struct stats` (`bank.c` lines 12 and 288-289). -/
def initState : BankState :=
  { balances := init_accounts NUM_ACCOUNTS INITIAL_BALANCE
    heldLocks := []
    stats := ⟨0, 0, 0, 0⟩ }

/-- Balance-mutation events (index, signed delta) performed by one completed
worker iteration in the given mode.  Justified against the embedded transfer
routines by the connection clause of the conservation theorem. -/
def transferDeltas (mode : Nat) (srcA dstA : Nat) (amount : Int) :
    List (Nat × Int) :=
  if mode = 0 then [(srcA, -amount), (dstA, amount)] else []

/-- Apply one balance-mutation event (`accounts[i].balance += delta`). -/
def applyDelta (bal : List Int) (e : Nat × Int) : List Int :=
  bal.set e.1 (bal.getD e.1 0 + e.2)

/-- Apply a sequence of balance-mutation events in order. -/
def applyDeltas (bal : List Int) (es : List (Nat × Int)) : List Int :=
  es.foldl applyDelta bal

/-- Concatenation of the balance-mutation events of a list of completed worker
iterations, in per-thread program order. -/
def allDeltas (mode : Nat) : List (Nat × Nat × Int) → List (Nat × Int)
  | [] => []
  | r :: rest => transferDeltas mode r.1 r.2.1 r.2.2 ++ allDeltas mode rest

/-- Result of one `getopt(argc, argv, "t:n:m:")` step in `main`, `bank.c`
lines 257-267: an accepted option with its `atoi`-converted argument, or an
unrecognized flag (`getopt` result `?`, the `default:` case). -/
inductive Opt where
  | t (v : Int)
  | n (v : Int)
  | m (v : Int)
  | unknown
deriving DecidableEq

/-- Text of the usage message printed to `stderr` in the `default:` case of
the option loop, `bank.c` lines 269-270 (with `argv[0]` abstracted away). -/
def usageMsg : String :=
  "Usage: [-t threads] [-n transfers] [-m mode]\n  mode: 0=naive, 1=timeout, 2=ordered, 3=trylock"

/-- Option-processing loop of `main`, `bank.c` lines 257-273, threading the
current values of `num_threads`, `transfers_per_thread` and `mode`.  An
unrecognized flag prints the usage message to `stderr` and exits with status
1 (`exit(1)`). -/
def parse_args_go : List Opt → Int → Int → Int →
    Except (String × Nat) (Int × Int × Int)
  | [], t, n, m => .ok (t, n, m)
  | Opt.t v :: rest, _, n, m => parse_args_go rest v n m
  | Opt.n v :: rest, t, _, m => parse_args_go rest t v m
  | Opt.m v :: rest, t, n, _ => parse_args_go rest t n v
  | Opt.unknown :: _, _, _, _ => .error (usageMsg, 1)

/-- Option processing started from the defaults of `bank.c` lines 251-253. -/
def parse_args (opts : List Opt) : Except (String × Nat) (Int × Int × Int) :=
  parse_args_go opts (NUM_THREADS : Nat) (TRANSFERS_PER_THREAD : Nat) 0

/-- Outcome of the part of `main` that runs before `init_accounts` (`bank.c`
line 289): either an early `exit` with a message on `stderr` and an exit code
(account creation never happens), or proceeding to `init_accounts` with the
final configuration. -/
inductive MainPhase where
  | earlyExit (stderrMsg : String) (exitCode : Nat)
  | runWith (numThreads transfersPerThread mode : Int)
deriving DecidableEq

/-- Pre-initialisation phase of `main`, `bank.c` lines 250-289: option
processing, then the banner whose `else` branch (`bank.c` lines 281-284)
prints `Invalid mode` to `stderr` and exits with status 1 when the mode is
not one of 0, 1, 2, 3 — all before `init_accounts` is reached. -/
def main_pre_init (opts : List Opt) : MainPhase :=
  match parse_args opts with
  | .error (msg, code) => .earlyExit msg code
  | .ok (t, n, m) =>
    if m = 0 ∨ m = 1 ∨ m = 2 ∨ m = 3 then .runWith t n m
    else .earlyExit "Invalid mode" 1

/-! Helper lemmas about the embedded code. -/

/-- In the starter code the first bounded-wait acquisition always times out,
so `transfer_timeout` always returns `-1` and leaves the state untouched. -/
lemma transfer_timeout_eq (srcA dstA : Nat) (amount : Int) (s : BankState) :
    transfer_timeout srcA dstA amount s = (s, -1) := by
  simp [transfer_timeout, mutex_trylock_timed]

/-- The starter `transfer_trylock` returns `-1` and leaves the state
untouched. -/
lemma transfer_trylock_eq (srcA dstA : Nat) (amount : Int) (s : BankState) :
    transfer_trylock srcA dstA amount s = (s, -1) := rfl

/-- Full description of the mode-1 retry loop on the starter code: since
every `transfer_timeout` call fails, the loop performs `allowed + 1` attempts,
increments `retries` once per attempt, increments `failed_transfers` once,
and leaves balances, held locks and the other counters unchanged. -/
lemma timeout_retry_loop_spec (srcA dstA : Nat) (amount : Int) :
    ∀ (allowed : Nat) (s : BankState),
      timeout_retry_loop srcA dstA amount allowed s =
        ({ s with stats :=
            { s.stats with
                retries := s.stats.retries + (allowed + 1)
                failed_transfers := s.stats.failed_transfers + 1 } },
          allowed + 1) := by
  intro allowed
  induction allowed with
  | zero =>
    intro s
    simp [timeout_retry_loop, transfer_timeout_eq, incRetries, incFailed]
  | succ al ih =>
    intro s
    rw [timeout_retry_loop, transfer_timeout_eq]
    simp only []
    rw [if_neg (by decide), ih]
    simp only [incRetries]
    have harith : s.stats.retries + 1 + (al + 1) = s.stats.retries + (al + 1 + 1) := by
      omega
    rw [harith]

/-- Full description of the mode-3 retry loop on the starter code, identical
to the mode-1 loop. -/
lemma trylock_retry_loop_spec (srcA dstA : Nat) (amount : Int) :
    ∀ (allowed : Nat) (s : BankState),
      trylock_retry_loop srcA dstA amount allowed s =
        ({ s with stats :=
            { s.stats with
                retries := s.stats.retries + (allowed + 1)
                failed_transfers := s.stats.failed_transfers + 1 } },
          allowed + 1) := by
  intro allowed
  induction allowed with
  | zero =>
    intro s
    simp [trylock_retry_loop, transfer_trylock_eq, incRetries, incFailed]
  | succ al ih =>
    intro s
    rw [trylock_retry_loop, transfer_trylock_eq]
    simp only []
    rw [if_neg (by decide), ih]
    simp only [incRetries]
    have harith : s.stats.retries + 1 + (al + 1) = s.stats.retries + (al + 1 + 1) := by
      omega
    rw [harith]

/-- The running-total loop of `verify_total` computes the list sum. -/
lemma foldl_add_eq_sum (l : List Int) : ∀ a : Int, l.foldl (· + ·) a = a + l.sum := by
  induction l with
  | nil => intro a; simp
  | cons x xs ih =>
    intro a
    simp only [List.foldl_cons, List.sum_cons, ih]
    ring

/-- Characterisation of the embedded `verify_total`. -/
lemma verify_total_iff (balances : List Int) (expected_total : Int) :
    verify_total balances expected_total = true ↔ balances.sum = expected_total := by
  simp [verify_total, foldl_add_eq_sum]

/-- Adding a delta to an in-range entry shifts the list sum by that delta. -/
lemma sum_set_getD (l : List Int) : ∀ (i : Nat) (d : Int), i < l.length →
    (l.set i (l.getD i 0 + d)).sum = l.sum + d := by
  induction l with
  | nil => intro i d h; simp at h
  | cons x xs ih =>
    intro i d h
    cases i with
    | zero =>
      simp only [List.getD_cons_zero, List.set_cons_zero, List.sum_cons]
      ring
    | succ j =>
      simp only [List.getD_cons_succ, List.set_cons_succ, List.sum_cons]
      rw [ih j d (by simpa using h)]
      ring

/-- Applying one balance delta preserves the length of the balance list. -/
lemma length_applyDelta (bal : List Int) (e : Nat × Int) :
    (applyDelta bal e).length = bal.length := by
  simp [applyDelta]

/-- Applying an event list whose indices are all in range shifts the sum of
the balances by the sum of the deltas. -/
lemma sum_applyDeltas (es : List (Nat × Int)) : ∀ bal : List Int,
    (∀ e ∈ es, e.1 < bal.length) →
    (applyDeltas bal es).sum = bal.sum + (es.map Prod.snd).sum := by
  induction es with
  | nil => intro bal _; simp [applyDeltas]
  | cons e rest ih =>
    intro bal hb
    have he : e.1 < bal.length := hb e (by simp)
    have hrest : ∀ x ∈ rest, x.1 < (applyDelta bal e).length := by
      intro x hx
      rw [length_applyDelta]
      exact hb x (by simp [hx])
    simp only [applyDeltas, List.foldl_cons, List.map_cons, List.sum_cons]
    have h1 := ih (applyDelta bal e) hrest
    simp only [applyDeltas] at h1
    have h2 : (applyDelta bal e).sum = bal.sum + e.2 := by
      simpa [applyDelta] using sum_set_getD bal e.1 e.2 he
    rw [h1, h2]
    ring

/-- The deltas of one worker iteration sum to zero in every mode. -/
lemma transferDeltas_snd_sum (mode srcA dstA : Nat) (amount : Int) :
    ((transferDeltas mode srcA dstA amount).map Prod.snd).sum = 0 := by
  by_cases h : mode = 0 <;> simp [transferDeltas, h]

/-- The deltas of any list of worker iterations sum to zero. -/
lemma allDeltas_snd_sum (mode : Nat) :
    ∀ iters : List (Nat × Nat × Int), ((allDeltas mode iters).map Prod.snd).sum = 0 := by
  intro iters
  induction iters with
  | nil => simp [allDeltas]
  | cons r rest ih =>
    simp [allDeltas, ih, transferDeltas_snd_sum]

/-- Every delta produced by a list of worker iterations targets one of the
two accounts of its iteration. -/
lemma allDeltas_fst_lt (mode : Nat) (bound : Nat) :
    ∀ iters : List (Nat × Nat × Int),
      (∀ r ∈ iters, r.1 < bound ∧ r.2.1 < bound) →
      ∀ e ∈ allDeltas mode iters, e.1 < bound := by
  intro iters
  induction iters with
  | nil => intro _ e he; simp [allDeltas] at he
  | cons r rest ih =>
    intro hr e he
    simp only [allDeltas, List.mem_append] at he
    rcases he with he | he
    · have hb := hr r (by simp)
      by_cases h : mode = 0
      · simp [transferDeltas, h] at he
        rcases he with rfl | rfl
        · exact hb.1
        · exact hb.2
      · simp [transferDeltas, h] at he
    · exact ih (fun x hx => hr x (by simp [hx])) e he

/-- Balances after one worker iteration are the balances before it with the
iteration deltas applied, in every mode. -/
lemma worker_step_balances (mode srcA dstA : Nat) (amount : Int) (s : BankState) :
    (worker_step mode srcA dstA amount s).balances =
      applyDeltas s.balances (transferDeltas mode srcA dstA amount) := by
  by_cases h0 : mode = 0
  · simp [worker_step, h0, transfer_naive, transferDeltas, applyDeltas, applyDelta,
      setBalance, getBalance, acquireLock, releaseLock, incSuccessful, sub_eq_add_neg]
  · by_cases h1 : mode = 1
    · simp [worker_step, h0, h1, timeout_retry_loop_spec, transferDeltas, applyDeltas]
    · by_cases h2 : mode = 2
      · simp [worker_step, h0, h1, h2, transfer_ordered, incSuccessful, transferDeltas,
          applyDeltas]
      · by_cases h3 : mode = 3
        · simp [worker_step, h0, h1, h2, h3, trylock_retry_loop_spec, transferDeltas,
            applyDeltas]
        · simp [worker_step, h0, h1, h2, h3, transferDeltas, applyDeltas]

/-- An unrecognized flag anywhere in the option stream makes the option loop
exit with the usage message and status 1, whatever values accumulated. -/
lemma parse_args_go_unknown : ∀ (opts : List Opt) (t n m : Int),
    Opt.unknown ∈ opts →
    parse_args_go opts t n m = .error (usageMsg, 1) := by
  intro opts
  induction opts with
  | nil => intro t n m h; simp at h
  | cons o rest ih =>
    intro t n m h
    cases o with
    | t v =>
      have : Opt.unknown ∈ rest := by simpa using h
      simpa [parse_args_go] using ih v n m this
    | n v =>
      have : Opt.unknown ∈ rest := by simpa using h
      simpa [parse_args_go] using ih t v m this
    | m v =>
      have : Opt.unknown ∈ rest := by simpa using h
      simpa [parse_args_go] using ih t n v this
    | unknown => simp [parse_args_go]

/-- The only error the option loop can produce is the usage message with
exit status 1. -/
lemma parse_args_go_error : ∀ (opts : List Opt) (t n m : Int) (e : String × Nat),
    parse_args_go opts t n m = .error e → e = (usageMsg, 1) := by
  intro opts
  induction opts with
  | nil => intro t n m e h; simp [parse_args_go] at h
  | cons o rest ih =>
    intro t n m e h
    cases o with
    | t v => exact ih v n m e (by simpa [parse_args_go] using h)
    | n v => exact ih t v m e (by simpa [parse_args_go] using h)
    | m v => exact ih t n v e (by simpa [parse_args_go] using h)
    | unknown =>
      simp only [parse_args_go, Except.error.injEq] at h
      exact h.symm

/-- C1: For every run that terminates, after all worker threads are joined the
sum of all account balances equals `num_accounts * initial_balance`
(10 * 1000), for every strategy mode, every thread count and every
transfers-per-thread count.  A terminated run is modelled as an arbitrary
interleaving `L` (any permutation) of the balance-write events of all
completed worker iterations across all threads; the first conjunct checks the
event lists against the embedded transfer code of every mode, the second is
the `verify_total` conservation check. -/
theorem conservation_after_join (mode : Nat) (iters : List (Nat × Nat × Int))
    (L : List (Nat × Int))
    (hperm : L.Perm (allDeltas mode iters))
    (hbound : ∀ r ∈ iters, r.1 < NUM_ACCOUNTS ∧ r.2.1 < NUM_ACCOUNTS) :
    (∀ (m srcA dstA : Nat) (amount : Int) (s : BankState),
        (worker_step m srcA dstA amount s).balances =
          applyDeltas s.balances (transferDeltas m srcA dstA amount)) ∧
    verify_total (applyDeltas (init_accounts NUM_ACCOUNTS INITIAL_BALANCE) L)
      ((NUM_ACCOUNTS : Int) * INITIAL_BALANCE) = true := by
  refine ⟨worker_step_balances, ?_⟩
  rw [verify_total_iff]
  have hlen : (init_accounts NUM_ACCOUNTS INITIAL_BALANCE).length = NUM_ACCOUNTS := by
    simp [init_accounts]
  have hL : ∀ e ∈ L, e.1 < (init_accounts NUM_ACCOUNTS INITIAL_BALANCE).length := by
    intro e he
    rw [hlen]
    exact allDeltas_fst_lt mode NUM_ACCOUNTS iters hbound e (hperm.mem_iff.mp he)
  rw [sum_applyDeltas L (init_accounts NUM_ACCOUNTS INITIAL_BALANCE) hL]
  have hsnd : (L.map Prod.snd).sum = 0 := by
    rw [(hperm.map Prod.snd).sum_eq, allDeltas_snd_sum]
  have hinit : (init_accounts NUM_ACCOUNTS INITIAL_BALANCE).sum =
      (NUM_ACCOUNTS : Int) * INITIAL_BALANCE := by
    simp [init_accounts, List.sum_replicate, nsmul_eq_mul]
  rw [hsnd, hinit, add_zero]

/-- C1 witness: one mode-0 transfer of 5 from account 0 to account 1, with the
two balance writes interleaved in reversed order. -/
theorem conservation_after_join_witness :
    verify_total
      (applyDeltas (init_accounts NUM_ACCOUNTS INITIAL_BALANCE) [(1, 5), (0, -5)])
      ((NUM_ACCOUNTS : Int) * INITIAL_BALANCE) = true :=
  (conservation_after_join 0 [(0, 1, 5)] [(1, 5), (0, -5)]
    (by decide) (by decide)).2

/-- C2: the starter `mutex_trylock_timed` contradicts its documented contract
(`bank.c` lines 73-81): called on the initial state, in which no account lock
is held (so the lock of account 0 is free at the time of the call) and with
the full 100 ms budget, it still returns `ETIMEDOUT`, which is not the
success value 0. -/
theorem mutex_trylock_timed_stub_times_out_on_free_lock :
    mutex_trylock_timed initState 0 100 = (initState, ETIMEDOUT) ∧
    initState.heldLocks = [] ∧
    ETIMEDOUT ≠ 0 :=
  ⟨rfl, rfl, by decide⟩

/-- C3: whenever `transfer_timeout` returns failure it holds zero account
locks, and the same holds for `transfer_trylock`.  The third conjunct records
why in the starter code: the first bounded-wait acquisition always times out,
so every failure is a first-lock timeout at which no lock was ever taken; the
second-lock-timeout branch (whose release is a TODO in the source) is never
reached. -/
theorem failure_holds_zero_locks (srcA dstA : Nat) (amount : Int)
    (s : BankState) (hstart : s.heldLocks = []) :
    ((transfer_timeout srcA dstA amount s).2 ≠ 0 →
      (transfer_timeout srcA dstA amount s).1.heldLocks = []) ∧
    ((transfer_trylock srcA dstA amount s).2 ≠ 0 →
      (transfer_trylock srcA dstA amount s).1.heldLocks = []) ∧
    (mutex_trylock_timed s srcA 100).2 = ETIMEDOUT := by
  refine ⟨?_, ?_, rfl⟩
  · intro _
    simp [transfer_timeout_eq, hstart]
  · intro _
    simp [transfer_trylock_eq, hstart]

/-- C3 witness at a concrete failing transfer from account 0 to account 1. -/
theorem failure_holds_zero_locks_witness :
    (transfer_timeout 0 1 5 initState).1.heldLocks = [] ∧
    (transfer_trylock 0 1 5 initState).1.heldLocks = [] := by
  have h := failure_holds_zero_locks 0 1 5 initState rfl
  exact ⟨h.1 (by decide), h.2.1 (by decide)⟩

/-- C4: for the TimeoutDetect and TrylockBackoff strategies, every invocation
that returns failure leaves both balances unchanged, and a transfer abandoned
by the worker after the retry cap has touched neither balance. -/
theorem failed_transfer_leaves_balances (srcA dstA : Nat) (amount : Int)
    (s : BankState) :
    ((transfer_timeout srcA dstA amount s).2 ≠ 0 →
      (transfer_timeout srcA dstA amount s).1.balances = s.balances) ∧
    ((transfer_trylock srcA dstA amount s).2 ≠ 0 →
      (transfer_trylock srcA dstA amount s).1.balances = s.balances) ∧
    (timeout_retry_loop srcA dstA amount 1000 s).1.balances = s.balances ∧
    (trylock_retry_loop srcA dstA amount 1000 s).1.balances = s.balances := by
  refine ⟨?_, ?_, ?_, ?_⟩
  · intro _
    simp [transfer_timeout_eq]
  · intro _
    simp [transfer_trylock_eq]
  · simp [timeout_retry_loop_spec]
  · simp [trylock_retry_loop_spec]

/-- C4 witness at a concrete failing transfer from account 0 to account 1. -/
theorem failed_transfer_leaves_balances_witness :
    (transfer_timeout 0 1 5 initState).1.balances = initState.balances ∧
    (transfer_trylock 0 1 5 initState).1.balances = initState.balances := by
  have h := failed_transfer_leaves_balances 0 1 5 initState
  exact ⟨h.1 (by decide), h.2.1 (by decide)⟩

/-- C5: the starter `transfer_ordered` contradicts the documented ordered
strategy (`bank.c` lines 137-152): on two accounts at 1000 each, transferring
50 from account 0 to account 1 leaves the balances at 1000 and 1000 instead
of the specified 950 and 1050, while still counting one successful
transfer. -/
theorem transfer_ordered_stub_moves_no_money :
    (transfer_ordered 0 1 50 ⟨[1000, 1000], [], ⟨0, 0, 0, 0⟩⟩).balances
        = [1000, 1000] ∧
    (transfer_ordered 0 1 50 ⟨[1000, 1000], [], ⟨0, 0, 0, 0⟩⟩).balances
        ≠ [(950 : Int), 1050] ∧
    (transfer_ordered 0 1 50
        ⟨[1000, 1000], [], ⟨0, 0, 0, 0⟩⟩).stats.successful_transfers = 1 :=
  ⟨rfl, by decide, rfl⟩

/-- C6 counterexample: in mode 1, starting from the initial state, processing
one transfer makes 1001 strategy invocations for that single transfer, more
than the 1000 attempts total that the claim allows. -/
theorem retry_cap_attempt_count_cex :
    (timeout_retry_loop 0 1 5 1000 initState).2 = 1001 ∧
    ¬ (timeout_retry_loop 0 1 5 1000 initState).2 ≤ 1000 := by
  have h := timeout_retry_loop_spec 0 1 5 1000 initState
  refine ⟨?_, ?_⟩ <;> simp [h]

/-- C6 amended: for modes 1 and 3 the worker makes up to 1001 strategy
invocations for one transfer — the initial attempt plus up to 1000 retries.
On the starter strategies every invocation fails, so the loop performs
exactly 1001 invocations, increments the permanent-failure counter exactly
once for that transfer, abandons it, and the worker continues with the next
request in its list. -/
theorem retry_cap_amended (srcA dstA : Nat) (amount : Int) (s : BankState) :
    (timeout_retry_loop srcA dstA amount 1000 s).2 = 1001 ∧
    (timeout_retry_loop srcA dstA amount 1000 s).1.stats.failed_transfers =
      s.stats.failed_transfers + 1 ∧
    (trylock_retry_loop srcA dstA amount 1000 s).2 = 1001 ∧
    (trylock_retry_loop srcA dstA amount 1000 s).1.stats.failed_transfers =
      s.stats.failed_transfers + 1 ∧
    (∀ (mode : Nat) (r : Nat × Nat × Int) (rest : List (Nat × Nat × Int)),
      worker_run mode (r :: rest) s =
        worker_run mode rest (worker_step mode r.1 r.2.1 r.2.2 s)) := by
  refine ⟨?_, ?_, ?_, ?_, fun mode r rest => rfl⟩ <;>
    simp [timeout_retry_loop_spec, trylock_retry_loop_spec]

/-- C7: evaluation at the failing input.  The call `transfer_timeout 0 1 5`
from the initial state is a first-lock timeout event, yet the
deadlock-detection counter is not incremented (the increment is an
unimplemented TODO in the starter); after the full retry loop for this one
transfer the counter is still 0 while `retries` was incremented 1001 times,
once per failed invocation — including the final failure that triggers
abandonment rather than a caller-level retry. -/
theorem timeout_event_no_detection_increment :
    (transfer_timeout 0 1 5 initState).2 = -1 ∧
    (transfer_timeout 0 1 5 initState).1.stats.deadlock_detections =
      initState.stats.deadlock_detections ∧
    (timeout_retry_loop 0 1 5 1000 initState).1.stats.retries = 1001 ∧
    (timeout_retry_loop 0 1 5 1000 initState).1.stats.deadlock_detections = 0 := by
  have h := timeout_retry_loop_spec 0 1 5 1000 initState
  refine ⟨?_, ?_, ?_, ?_⟩
  · simp [transfer_timeout_eq]
  · simp [transfer_timeout_eq]
  · rw [h]
    decide
  · rw [h]
    decide

/-- Reading an entry other than the one just written is unchanged. -/
lemma getD_set_ne (l : List Int) (i j : Nat) (v : Int) (h : i ≠ j) :
    (l.set i v).getD j 0 = l.getD j 0 := by
  simp [List.getD_eq_getElem?_getD, List.getElem?_set_ne h]

/-- C8: `transfer_naive` has no failure return (it is `void` in the source
and its embedding produces no status), performs exactly the eight steps of
the claim in program order, increments the success counter by one, and for
distinct accounts debits the true source by `amount` and credits the true
destination by `amount`. -/
theorem transfer_naive_step_order (srcA dstA : Nat) (amount : Int)
    (s : BankState) (hdistinct : srcA ≠ dstA) :
    (transfer_naive srcA dstA amount s).2 =
      [Event.lock srcA, Event.sleep, Event.lock dstA, Event.debit srcA amount,
       Event.credit dstA amount, Event.unlock dstA, Event.unlock srcA,
       Event.incSuccess] ∧
    (transfer_naive srcA dstA amount s).1.stats.successful_transfers =
      s.stats.successful_transfers + 1 ∧
    (transfer_naive srcA dstA amount s).1.balances =
      (s.balances.set srcA (s.balances.getD srcA 0 - amount)).set dstA
        (s.balances.getD dstA 0 + amount) := by
  refine ⟨rfl, rfl, ?_⟩
  simp only [transfer_naive, setBalance, getBalance, acquireLock, releaseLock,
    incSuccessful]
  rw [getD_set_ne s.balances srcA dstA _ hdistinct]

/-- C8 witness: a naive transfer of 50 from account 0 to account 1 out of the
initial state. -/
theorem transfer_naive_step_order_witness :
    (transfer_naive 0 1 50 initState).2 =
      [Event.lock 0, Event.sleep, Event.lock 1, Event.debit 0 50,
       Event.credit 1 50, Event.unlock 1, Event.unlock 0, Event.incSuccess] ∧
    (transfer_naive 0 1 50 initState).1.stats.successful_transfers =
      initState.stats.successful_transfers + 1 ∧
    (transfer_naive 0 1 50 initState).1.balances =
      (initState.balances.set 0 (initState.balances.getD 0 0 - 50)).set 1
        (initState.balances.getD 1 0 + 50) :=
  transfer_naive_step_order 0 1 50 initState (by decide)

/-- C9 counterexample: with the single option `-m 4` (mode out of range),
`main` exits with status 1 before `init_accounts`, but the message it prints
to the error stream is `Invalid mode`, not the usage message the claim
requires. -/
theorem invalid_mode_message_cex :
    main_pre_init [Opt.m 4] = MainPhase.earlyExit "Invalid mode" 1 ∧
    ("Invalid mode" : String) ≠ usageMsg := by
  exact ⟨by decide, by decide⟩

/-- C9 amended: an unrecognized flag makes `main` print the usage message to
the error stream and exit with status 1 before `init_accounts` is reached;
an out-of-range `-m` mode also exits with status 1 before `init_accounts`,
but with the message `Invalid mode`.  Every early exit of the
pre-initialisation phase carries status 1 and one of those two messages, and
only a `runWith` outcome (whose mode is then one of 0..3) reaches
`init_accounts`. -/
theorem arg_validation_amended (opts : List Opt) :
    (Opt.unknown ∈ opts →
      main_pre_init opts = MainPhase.earlyExit usageMsg 1) ∧
    (∀ t n m, main_pre_init opts = MainPhase.runWith t n m →
      m = 0 ∨ m = 1 ∨ m = 2 ∨ m = 3) ∧
    (∀ msg c, main_pre_init opts = MainPhase.earlyExit msg c →
      c = 1 ∧ (msg = usageMsg ∨ msg = "Invalid mode")) := by
  refine ⟨?_, ?_, ?_⟩
  · intro hmem
    unfold main_pre_init parse_args
    rw [parse_args_go_unknown opts _ _ _ hmem]
  · intro t n m h
    unfold main_pre_init at h
    cases hp : parse_args opts with
    | error e =>
      obtain ⟨m0, c0⟩ := e
      rw [hp] at h
      simp at h
    | ok v =>
      obtain ⟨t0, n0, m0⟩ := v
      rw [hp] at h
      by_cases hv : m0 = 0 ∨ m0 = 1 ∨ m0 = 2 ∨ m0 = 3
      · simp only [hv, if_true, MainPhase.runWith.injEq] at h
        obtain ⟨-, -, rfl⟩ := h
        exact hv
      · simp only [hv, if_false] at h
        exact absurd h (by simp)
  · intro msg c h
    unfold main_pre_init at h
    cases hp : parse_args opts with
    | error e =>
      obtain ⟨m0, c0⟩ := e
      have he : (m0, c0) = (usageMsg, 1) := parse_args_go_error opts _ _ _ (m0, c0) hp
      have hm : m0 = usageMsg := congrArg Prod.fst he
      have hc : c0 = 1 := congrArg Prod.snd he
      rw [hp] at h
      simp only [MainPhase.earlyExit.injEq] at h
      obtain ⟨rfl, rfl⟩ := h
      exact ⟨hc, Or.inl hm⟩
    | ok v =>
      obtain ⟨t0, n0, m0⟩ := v
      rw [hp] at h
      by_cases hv : m0 = 0 ∨ m0 = 1 ∨ m0 = 2 ∨ m0 = 3
      · simp only [hv, if_true] at h
        exact absurd h (by simp)
      · simp only [hv, if_false, MainPhase.earlyExit.injEq] at h
        obtain ⟨rfl, rfl⟩ := h
        exact ⟨rfl, Or.inr rfl⟩

/-- C9 amended witness: a lone unrecognized flag exits with the usage message
and status 1 before account creation. -/
theorem arg_validation_amended_witness :
    main_pre_init [Opt.unknown] = MainPhase.earlyExit usageMsg 1 :=
  (arg_validation_amended [Opt.unknown]).1 (by decide)

/-- Every request produced by the worker request selection has distinct
accounts and an amount between 1 and 10, shown by strong induction on the
length of the random stream. -/
lemma genRequests_mem (num_accounts : Nat) :
    ∀ (fuel : Nat) (rands : List Nat), rands.length ≤ fuel →
      ∀ (budget : Nat) (r : Nat × Nat × Int), r ∈ genRequests num_accounts rands budget →
        r.1 ≠ r.2.1 ∧ 1 ≤ r.2.2 ∧ r.2.2 ≤ 10 := by
  intro fuel
  induction fuel with
  | zero =>
    intro rands hlen budget r hr
    have : rands = [] := List.length_eq_zero.mp (Nat.le_zero.mp hlen)
    subst this
    cases budget <;> simp [genRequests] at hr
  | succ n ih =>
    intro rands hlen budget r hr
    match rands, budget with
    | _, 0 => simp [genRequests] at hr
    | [], Nat.succ b => simp [genRequests] at hr
    | [x], Nat.succ b => simp [genRequests] at hr
    | r1 :: r2 :: rest, Nat.succ b =>
      rw [genRequests.eq_def] at hr
      simp only [] at hr
      by_cases heq : r1 % num_accounts = r2 % num_accounts
      · rw [if_pos heq] at hr
        have hlen2 : rest.length ≤ n := by
          simp only [List.length_cons] at hlen
          omega
        exact ih rest hlen2 (Nat.succ b) r hr
      · rw [if_neg heq] at hr
        cases rest with
        | nil => simp at hr
        | cons ra rest2 =>
          rcases List.mem_cons.mp hr with hr | hr
          · subst hr
            refine ⟨heq, ?_, ?_⟩
            · show (1 : Int) ≤ ((1 + ra % 10 : Nat) : Int)
              push_cast
              omega
            · show ((1 + ra % 10 : Nat) : Int) ≤ 10
              push_cast
              omega
          · have hlen2 : rest2.length ≤ n := by
              simp only [List.length_cons] at hlen
              omega
            exact ih rest2 hlen2 b r hr

/-- C10: every transfer the worker submits has distinct accounts (equal draws
are re-drawn without consuming the transfer budget) and an amount between 1
and 10 inclusive. -/
theorem worker_request_selection (num_accounts : Nat) (rands : List Nat)
    (budget : Nat) (r : Nat × Nat × Int)
    (hmem : r ∈ genRequests num_accounts rands budget) :
    (r.1 ≠ r.2.1 ∧ 1 ≤ r.2.2 ∧ r.2.2 ≤ 10) ∧
    (∀ (d1 d2 : Nat) (rest : List Nat) (b : Nat),
      d1 % num_accounts = d2 % num_accounts →
      genRequests num_accounts (d1 :: d2 :: rest) (Nat.succ b) =
        genRequests num_accounts rest (Nat.succ b)) := by
  refine ⟨genRequests_mem num_accounts rands.length rands le_rfl budget r hmem, ?_⟩
  intro d1 d2 rest b hd
  rw [genRequests.eq_def]
  simp [hd]

/-- C10 witness: with the random stream 0, 1, 4 and a budget of one transfer
the worker submits exactly the request from account 0 to account 1 with
amount 5. -/
theorem worker_request_selection_witness :
    (0 : Nat) ≠ (1 : Nat) ∧ (1 : Int) ≤ 5 ∧ (5 : Int) ≤ 10 :=
  (worker_request_selection 10 [0, 1, 4] 1 (0, 1, 5) (by decide)).1

end Bank
